import Mathlib

/-!
Verification of the botorch model/converter subsystem.

Part 1 embeds `src/botorch/models/model.py`: the abstract `Model` base class
with its abstract `posterior`, its default `condition_on_observations`
(which raises `NotImplementedError`), and `fantasize`, which composes the
two through a sampler.

Part 2 embeds the converter subsystem (`model_list_to_batched` and
`batched_to_model_list`). Its Python source is not in the repository
snapshot (only its tests are), so those definitions are modelled from the
specification, as marked in their doc comments.
-/

deriving instance DecidableEq for Except

namespace BoTorch

/-- Python exceptions that the embedded methods can raise. `notImplemented`
stands for `NotImplementedError`; `other` carries any other exception. -/
inductive PyErr where
  | notImplemented : PyErr
  | other : String → PyErr
deriving DecidableEq, Repr

/-- Shallow embedding of the abstract `Model` base class of
`src/botorch/models/model.py`. `X` is the type of query/input tensors,
`Y` of observation tensors, `P` of posteriors, and `M` of the models
returned by conditioning. The abstract method `posterior` is a field
(each concrete subclass supplies it; it may raise). A subclass either
overrides `condition_on_observations` (the field holds `some f`) or
inherits the default body (the field holds `none`). -/
structure Model (X Y P M : Type) where
  posterior : X → Bool → Except PyErr P
  conditionImpl : Option (X → Y → Except PyErr M)

/-- `Model.condition_on_observations` from `model.py` lines 49-70: the
default implementation raises `NotImplementedError`; an overriding
implementation runs instead. -/
def Model.condition_on_observations {X Y P M : Type} (m : Model X Y P M)
    (x : X) (y : Y) : Except PyErr M :=
  match m.conditionImpl with
  | some f => f x y
  | none => .error .notImplemented

/-- `Model.fantasize` from `model.py` lines 72-101:
(1) compute the posterior at `X` with the given observation-noise flag,
(2) sample from it with `sampler`, (3) condition on the sampled
observations. Each step may raise, and the raise propagates. -/
def Model.fantasize {X Y P M : Type} (m : Model X Y P M)
    (x : X) (sampler : P → Except PyErr Y) (observation_noise : Bool) :
    Except PyErr M :=
  match m.posterior x observation_noise with
  | .error e => .error e
  | .ok post =>
    match sampler post with
    | .error e => .error e
    | .ok y => m.condition_on_observations x y

end BoTorch


namespace BoTorch

/-- Modelled from the spec: the converter subsystem operates on parameter
tensors. A tensor is a shape together with its elements in row-major
order. Tensor values stand in for torch tensors; equality of two `Tensor`
values is the bitwise tensor equality of the spec. -/
@[ext]
structure Tensor where
  shape : List Nat
  data : List Int
deriving DecidableEq, Repr

/-- A tensor is well formed when it holds exactly as many elements as its
shape prescribes. -/
def Tensor.wf (t : Tensor) : Prop := t.data.length = t.shape.prod

instance (t : Tensor) : Decidable t.wf := by unfold Tensor.wf; infer_instance

/-- Modelled from the spec: stacking a list of same-shaped tensors along a
new leading output dimension (torch.stack at dim 0). -/
def stackTensors (ts : List Tensor) : Tensor :=
  { shape := ts.length :: (ts.head?.map Tensor.shape).getD [],
    data := (ts.map Tensor.data).flatten }

/-- Modelled from the spec: slicing a tensor along its leading output
dimension, extracting output `i` and keeping the remaining dimensions. -/
def sliceTensor (t : Tensor) (i : Nat) : Tensor :=
  match t.shape with
  | [] => t
  | _ :: s => { shape := s, data := (t.data.drop (i * s.prod)).take s.prod }

/-- Modelled from the spec: the closed set of concrete single-output GP
classes the converter distinguishes (plain, fixed-noise, heteroskedastic),
plus the plain non-batched GPyTorch model used by the tests. -/
inductive GPClass where
  | singleTaskGP : GPClass
  | fixedNoiseGP : GPClass
  | heteroskedasticSingleTaskGP : GPClass
  | simpleGPyTorchModel : GPClass
deriving DecidableEq, Repr

/-- Modelled from the spec: the likelihood / noise specification of a
model: a fixed (data-supplied) noise tensor, a learned-noise likelihood
with default Gamma prior hyperparameters (concentration and rate), or a
custom (non-default) likelihood object. -/
inductive Likelihood where
  | fixedNoise : Tensor → Likelihood
  | gaussianDefault : Int → Int → Likelihood
  | custom : Likelihood
deriving DecidableEq, Repr

/-- The fixed-noise tensor of a likelihood (only meaningful on
`fixedNoise`). -/
def Likelihood.noiseTensor : Likelihood → Tensor
  | Likelihood.fixedNoise t => t
  | _ => { shape := [], data := [] }

/-- Whether the likelihood is a custom (non-default) likelihood object. -/
def Likelihood.isCustom : Likelihood → Bool
  | Likelihood.custom => true
  | _ => false

/-- The noise tensor is well formed whenever the noise is fixed. -/
def Likelihood.wfNoise : Likelihood → Prop
  | Likelihood.fixedNoise t => t.wf
  | _ => True

instance (lik : Likelihood) : Decidable lik.wfNoise := by
  cases lik <;> unfold Likelihood.wfNoise <;> infer_instance

/-- Modelled from the spec: learned-noise prior hyperparameters must match
exactly across members; two likelihoods of different kinds cannot be
batched together either. -/
def likPriorsMatch : Likelihood → Likelihood → Bool
  | Likelihood.fixedNoise _, Likelihood.fixedNoise _ => true
  | Likelihood.gaussianDefault c r, Likelihood.gaussianDefault c0 r0 =>
      decide (c = c0) && decide (r = r0)
  | Likelihood.custom, Likelihood.custom => true
  | _, _ => false

/-- Modelled from the spec: fixed noise tensors must be shape-compatible
for stacking across members. -/
def noiseShapesMatch : Likelihood → Likelihood → Bool
  | Likelihood.fixedNoise t, Likelihood.fixedNoise t0 => decide (t.shape = t0.shape)
  | _, _ => true

/-- Modelled from the spec: the flat name-keyed parameter mapping (state
dictionary) of two members is stacking-compatible when both hold the same
parameter names in the same order with tensors of equal shapes. -/
def paramShapesMatch : List (String × Tensor) → List (String × Tensor) → Bool
  | [], [] => true
  | (k, t) :: ps, (k0, t0) :: qs =>
      decide (k = k0) && decide (t.shape = t0.shape) && paramShapesMatch ps qs
  | _, _ => false

/-- The tensor stored at position `j` of a flat parameter mapping. -/
def paramTensorAt (ps : List (String × Tensor)) (j : Nat) : Tensor :=
  ((ps[j]?).map Prod.snd).getD { shape := [], data := [] }

/-- Modelled from the spec: a single-output GP family instance (or a
batched multi-output one): its concrete class, whether it follows the
batched tensor convention (has a batch_shape attribute), its number of
outputs, training inputs and targets, likelihood, and its tensor-valued
hyperparameters as a flat name-keyed state dictionary. -/
@[ext]
structure GPModel where
  cls : GPClass
  has_batch_shape : Bool
  num_outputs : Nat
  train_X : Tensor
  train_Y : Tensor
  likelihood : Likelihood
  params : List (String × Tensor)
deriving DecidableEq, Repr

/-- Modelled from the spec: a ModelList holds an ordered sequence of
single-output models. -/
@[ext]
structure ModelListGP where
  models : List GPModel
deriving DecidableEq, Repr

/-- The two error kinds of the converter: `UnsupportedError` for a logical
mismatch between otherwise valid members, `NotImplementedError` for a
structurally unsupported class or likelihood. -/
inductive ConvErr where
  | unsupported : String → ConvErr
  | notImplemented : String → ConvErr
deriving DecidableEq, Repr

/-- All tensors held by a model hold exactly as many elements as their
shapes prescribe. -/
def GPModel.wfTensors (m : GPModel) : Prop :=
  m.train_X.wf ∧ m.train_Y.wf ∧ m.likelihood.wfNoise ∧
    ∀ kt ∈ m.params, (Prod.snd kt).wf

instance (m : GPModel) : Decidable m.wfTensors := by
  unfold GPModel.wfTensors; infer_instance

/-- A tensor is a well-formed batched tensor for `o` outputs when its
leading dimension is `o` and it is well formed. -/
def Tensor.wfBatch (t : Tensor) (o : Nat) : Prop :=
  t.shape.head? = some o ∧ t.data.length = t.shape.prod

instance (t : Tensor) (o : Nat) : Decidable (t.wfBatch o) := by
  unfold Tensor.wfBatch; infer_instance

/-- Modelled from the spec: construction of the batched model from a
validated member list: hyperparameters, training targets and fixed noise
are stacked along a new leading output dimension, and the shared training
input gains an output-batch dimension. -/
def batchedOf (m0 : GPModel) (rest : List GPModel) : GPModel :=
  { cls := m0.cls
    has_batch_shape := true
    num_outputs := (m0 :: rest).length
    train_X := stackTensors ((m0 :: rest).map fun _ => m0.train_X)
    train_Y := stackTensors ((m0 :: rest).map GPModel.train_Y)
    likelihood :=
      match m0.likelihood with
      | Likelihood.fixedNoise _ =>
          Likelihood.fixedNoise
            (stackTensors ((m0 :: rest).map fun m => m.likelihood.noiseTensor))
      | lik => lik
    params := List.ofFn fun j : Fin m0.params.length =>
      ((m0.params.get j).1,
       stackTensors ((m0 :: rest).map fun m => paramTensorAt m.params j.val)) }

/-- Modelled from the spec: `model_list_to_batched` from
`botorch/models/converter.py` (absent from the snapshot; only its tests
are present). The validation sequence runs in order with first-failure
short-circuit: (1) identical concrete class, (2) batched tensor
convention, (3) identical training inputs, (4) single-output members,
(5) noise handling: heteroskedastic models and custom likelihoods are not
implemented, learned-noise prior hyperparameters must match,
(6) stacking shape compatibility of targets, fixed noise and
hyperparameter tensors. Then the batched model is constructed. -/
def convertModels (m0 : GPModel) (rest : List GPModel) : Except ConvErr GPModel :=
  if ¬ (∀ m ∈ m0 :: rest, m.cls = m0.cls) then
      .error (.unsupported "All models must be of the same type")
    else if ¬ (∀ m ∈ m0 :: rest, m.has_batch_shape = true) then
      .error (.unsupported "Conversion of non-batched GPyTorch models is unsupported")
    else if ¬ (∀ m ∈ m0 :: rest, m.train_X = m0.train_X) then
      .error (.unsupported "All models must have the same training inputs")
    else if ¬ (∀ m ∈ m0 :: rest, m.num_outputs = 1) then
      .error (.unsupported "Cannot convert a list holding multi-output models")
    else if m0.cls = GPClass.heteroskedasticSingleTaskGP then
      .error (.notImplemented "Conversion of HeteroskedasticSingleTaskGP is not implemented")
    else if ¬ (∀ m ∈ m0 :: rest, m.likelihood.isCustom = false) then
      .error (.notImplemented "Conversion of models with custom likelihoods is not implemented")
    else if ¬ (∀ m ∈ m0 :: rest, likPriorsMatch m.likelihood m0.likelihood = true) then
      .error (.unsupported "All models must have the same training priors")
    else if ¬ (∀ m ∈ m0 :: rest, m.train_Y.shape = m0.train_Y.shape ∧
        noiseShapesMatch m.likelihood m0.likelihood = true ∧
        paramShapesMatch m.params m0.params = true) then
      .error (.unsupported "All models must have tensors of equal shape to be stacked")
    else
      .ok (batchedOf m0 rest)

/-- Modelled from the spec: `model_list_to_batched` from
`botorch/models/converter.py` (absent from the snapshot; only its tests
are present): validate and convert the member list, as in
`convertModels`. -/
def model_list_to_batched (model_list : ModelListGP) : Except ConvErr GPModel :=
  match model_list.models with
  | [] => .error (.unsupported "Cannot convert an empty model list")
  | m0 :: rest => convertModels m0 rest

/-- Modelled from the spec: slicing the fixed-noise tensor of a likelihood
along the output dimension; learned and custom likelihoods are shared
unchanged. -/
def Likelihood.sliceOutput : Likelihood → Nat → Likelihood
  | Likelihood.fixedNoise t, i => Likelihood.fixedNoise (sliceTensor t i)
  | lik, _ => lik

/-- Modelled from the spec: the single-output model extracted from a
batched model at output index `i`: every parameter tensor, the training
inputs, targets and fixed noise are sliced along the output dimension, and
the full parameter state is copied entry-by-entry. -/
def sliceModel (batch_model : GPModel) (i : Nat) : GPModel :=
  { cls := batch_model.cls
    has_batch_shape := true
    num_outputs := 1
    train_X := sliceTensor batch_model.train_X i
    train_Y := sliceTensor batch_model.train_Y i
    likelihood := batch_model.likelihood.sliceOutput i
    params := batch_model.params.map fun kt => (kt.1, sliceTensor kt.2 i) }

/-- Modelled from the spec: `batched_to_model_list` from
`botorch/models/converter.py` (absent from the snapshot; only its tests
are present): heteroskedastic models cannot be sliced unambiguously and
fail with `NotImplementedError`; otherwise the result is the list of the
`num_outputs` sliced single-output models, in output-dimension order. -/
def batched_to_model_list (batch_model : GPModel) : Except ConvErr ModelListGP :=
  if batch_model.cls = GPClass.heteroskedasticSingleTaskGP then
    .error (.notImplemented "Conversion of HeteroskedasticSingleTaskGP is not implemented")
  else
    .ok ⟨List.ofFn fun i : Fin batch_model.num_outputs => sliceModel batch_model i.val⟩

/-! Concrete models used as evaluation witnesses. -/

/-- A concrete 2-point, 1-feature training input tensor. -/
def exX : Tensor := { shape := [2, 1], data := [5, 7] }

/-- A concrete plain single-output GP. -/
def exA : GPModel :=
  { cls := GPClass.singleTaskGP, has_batch_shape := true, num_outputs := 1,
    train_X := exX, train_Y := { shape := [2], data := [1, 2] },
    likelihood := Likelihood.gaussianDefault 2 3,
    params := [("raw_scale", { shape := [1], data := [9] })] }

/-- A second plain single-output GP sharing `exA`'s training inputs. -/
def exB : GPModel :=
  { exA with
    train_Y := { shape := [2], data := [3, 4] },
    params := [("raw_scale", { shape := [1], data := [8] })] }

/-- Like `exB` but of a different concrete class (fixed-noise GP). -/
def exC : GPModel :=
  { exB with
    cls := GPClass.fixedNoiseGP,
    likelihood := Likelihood.fixedNoise { shape := [2], data := [1, 1] } }

/-- Like `exB` but with different training inputs of the same shape. -/
def exD : GPModel :=
  { exB with train_X := { shape := [2, 1], data := [5, 8] } }

/-- Like `exB` but with a different learned-noise prior rate. -/
def exE : GPModel :=
  { exB with likelihood := Likelihood.gaussianDefault 2 4 }

/-- Like `exB` but with an output-scale tensor of a different shape. -/
def exF : GPModel :=
  { exB with params := [("raw_scale", { shape := [2], data := [8, 8] })] }

/-- Like `exA` but constructed with a custom (non-default) likelihood. -/
def exG : GPModel :=
  { exA with likelihood := Likelihood.custom }

/-- Like `exA` but heteroskedastic. -/
def exH : GPModel :=
  { exA with
    cls := GPClass.heteroskedasticSingleTaskGP,
    likelihood := Likelihood.fixedNoise { shape := [2], data := [1, 1] } }

/-! Helper lemmas about stacking and slicing. -/

/-- Dropping `i` chunks of length `n` from a flattened list of
equal-length chunks and taking one chunk recovers chunk `i`. -/
theorem flatten_drop_take {α : Type} (ds : List (List α)) (n : Nat)
    (h : ∀ d ∈ ds, d.length = n) :
    ∀ (i : Nat) (hi : i < ds.length), (ds.flatten.drop (i * n)).take n = ds[i] := by
  induction ds with
  | nil => intro i hi; exact absurd hi (by simp)
  | cons d ds ih =>
    intro i hi
    have hd : d.length = n := h d (List.mem_cons_self d ds)
    cases i with
    | zero =>
      rw [Nat.zero_mul, List.drop_zero, List.flatten_cons, ← hd, List.take_left]
      simp
    | succ i =>
      have hstep : (i + 1) * n = n + i * n := by ring
      have hdrop : (d :: ds).flatten.drop ((i + 1) * n) = ds.flatten.drop (i * n) := by
        rw [List.flatten_cons, hstep, ← List.drop_drop]
        congr 1
        rw [← hd, List.drop_left]
      rw [hdrop]
      have hi' : i < ds.length := by simpa using hi
      rw [ih (fun d hm => h d (List.mem_cons_of_mem _ hm)) i hi']
      simp

/-- Slicing a stack of same-shaped well-formed tensors at index `i`
recovers the `i`-th stacked tensor. -/
theorem slice_stackTensors (ts : List Tensor) (s : List Nat)
    (hsh : ∀ t ∈ ts, t.shape = s) (hwf : ∀ t ∈ ts, t.data.length = s.prod)
    (i : Nat) (hi : i < ts.length) :
    sliceTensor (stackTensors ts) i = ts[i] := by
  cases ts with
  | nil => exact absurd hi (by simp)
  | cons t0 ts' =>
    have hs0 : t0.shape = s := hsh t0 (List.mem_cons_self t0 ts')
    have hstack : stackTensors (t0 :: ts')
        = Tensor.mk ((t0 :: ts').length :: s) (((t0 :: ts').map Tensor.data).flatten) := by
      apply Tensor.ext
      · show (t0 :: ts').length :: t0.shape = _
        rw [hs0]
      · rfl
    rw [hstack]
    show Tensor.mk s ((((t0 :: ts').map Tensor.data).flatten.drop (i * s.prod)).take s.prod)
        = (t0 :: ts')[i]
    have hlen : ∀ d ∈ (t0 :: ts').map Tensor.data, d.length = s.prod := by
      intro d hm
      obtain ⟨t, ht, rfl⟩ := List.mem_map.mp hm
      exact hwf t ht
    have hi' : i < ((t0 :: ts').map Tensor.data).length := by simpa using hi
    rw [flatten_drop_take _ _ hlen i hi']
    apply Tensor.ext
    · exact (hsh _ (List.getElem_mem hi)).symm
    · exact List.getElem_map _

/-- Concatenating the `o` chunks of length `n` of a list of length
`o * n` recovers the list. -/
theorem ofFn_chunks_flatten {α : Type} (n : Nat) :
    ∀ (o : Nat) (d : List α), d.length = o * n →
      (List.ofFn fun i : Fin o => (d.drop (i.val * n)).take n).flatten = d := by
  intro o
  induction o with
  | zero =>
    intro d hd
    have : d = [] := List.length_eq_zero.mp (by simpa using hd)
    simp [this]
  | succ o ih =>
    intro d hd
    rw [List.ofFn_succ, List.flatten_cons]
    have htail : (fun i : Fin o => (d.drop ((i.succ.val) * n)).take n)
        = fun i : Fin o => ((d.drop n).drop (i.val * n)).take n := by
      funext i
      have hv : (i.succ.val) * n = n + i.val * n := by rw [Fin.val_succ]; ring
      rw [hv, ← List.drop_drop]
    have hrest : (d.drop n).length = o * n := by
      rw [List.length_drop, hd, Nat.succ_mul, Nat.add_sub_cancel]
    rw [htail, ih (d.drop n) hrest]
    simp [List.take_append_drop]

/-- Stacking the `o` output slices of a well-formed batched tensor with
leading dimension `o` recovers the tensor. -/
theorem stackTensors_slices (t : Tensor) (o : Nat) (ho : 0 < o)
    (hb : t.shape.head? = some o) (hwf : t.data.length = t.shape.prod) :
    stackTensors (List.ofFn fun i : Fin o => sliceTensor t i.val) = t := by
  obtain ⟨s, hs⟩ : ∃ s, t.shape = o :: s := by
    cases hsh : t.shape with
    | nil => rw [hsh] at hb; exact absurd hb (by simp)
    | cons a s =>
      rw [hsh] at hb
      exact ⟨s, by simpa using congrArg (fun x => (x.getD 0) :: s) hb⟩
  have hslice : ∀ i : Nat, sliceTensor t i
      = Tensor.mk s ((t.data.drop (i * s.prod)).take s.prod) := by
    intro i
    show (match t.shape with
      | [] => t
      | _ :: s => Tensor.mk s ((t.data.drop (i * s.prod)).take s.prod)) = _
    rw [hs]
  obtain ⟨o', rfl⟩ : ∃ o', o = o' + 1 := ⟨o - 1, by omega⟩
  apply Tensor.ext
  · show (List.ofFn fun i : Fin (o' + 1) => sliceTensor t i.val).length
      :: (((List.ofFn fun i : Fin (o' + 1) =>
            sliceTensor t i.val).head?.map Tensor.shape).getD []) = t.shape
    rw [List.ofFn_succ]
    simp [hslice, hs]
  · show ((List.ofFn fun i : Fin (o' + 1) => sliceTensor t i.val).map Tensor.data).flatten
      = t.data
    have hlen : t.data.length = (o' + 1) * s.prod := by rw [hwf, hs]; simp
    calc ((List.ofFn fun i : Fin (o' + 1) => sliceTensor t i.val).map Tensor.data).flatten
        = (List.ofFn fun i : Fin (o' + 1) =>
            (t.data.drop (i.val * s.prod)).take s.prod).flatten := by
          rw [List.map_ofFn]
          exact congrArg List.flatten (congrArg List.ofFn (funext fun i => by
            simp [Function.comp, hslice]))
      _ = t.data := ofFn_chunks_flatten s.prod (o' + 1) t.data hlen

/-- A successful `paramShapesMatch` pins down equal lengths and pointwise
equal keys and shapes. -/
theorem paramShapesMatch_spec :
    ∀ (ps qs : List (String × Tensor)), paramShapesMatch ps qs = true →
      ps.length = qs.length ∧
      ∀ (j : Nat) (hj : j < ps.length) (hq : j < qs.length),
        (ps[j]).1 = (qs[j]).1 ∧ (ps[j]).2.shape = (qs[j]).2.shape := by
  intro ps
  induction ps with
  | nil =>
    intro qs h
    cases qs with
    | nil => exact ⟨rfl, fun j hj _ => absurd hj (by simp)⟩
    | cons q qs => exact absurd h (by simp [paramShapesMatch])
  | cons p ps ih =>
    intro qs h
    cases qs with
    | nil => exact absurd h (by simp [paramShapesMatch])
    | cons q qs =>
      obtain ⟨⟨hk, hsh⟩, hrec⟩ : ((p.1 = q.1 ∧ p.2.shape = q.2.shape) ∧
          paramShapesMatch ps qs = true) := by
        have h' := h
        rw [show paramShapesMatch (p :: ps) (q :: qs)
            = (decide (p.1 = q.1) && decide (p.2.shape = q.2.shape)
                && paramShapesMatch ps qs) from rfl] at h'
        simp only [Bool.and_eq_true, decide_eq_true_eq] at h'
        exact ⟨⟨h'.1.1, h'.1.2⟩, h'.2⟩
      obtain ⟨hlen, hpt⟩ := ih qs hrec
      refine ⟨by simpa using hlen, ?_⟩
      intro j hj hq
      cases j with
      | zero => exact ⟨hk, hsh⟩
      | succ j =>
        have hj' : j < ps.length := by simpa using hj
        have hq' : j < qs.length := by simpa using hq
        simpa using hpt j hj' hq'

/-- `paramTensorAt` at an in-bounds position reads the stored tensor. -/
theorem paramTensorAt_lt (ps : List (String × Tensor)) (j : Nat)
    (hj : j < ps.length) : paramTensorAt ps j = (ps[j]).2 := by
  simp [paramTensorAt, List.getElem?_eq_getElem hj]

/-- `paramTensorAt` commutes with mapping a tensor transform over the
parameter state. -/
theorem paramTensorAt_map (ps : List (String × Tensor)) (g : Tensor → Tensor)
    (j : Nat) (hj : j < ps.length) :
    paramTensorAt (ps.map fun kt => (kt.1, g kt.2)) j = g (ps[j]).2 := by
  simp [paramTensorAt, List.getElem?_map, List.getElem?_eq_getElem hj]

/-- A likelihood whose priors match a fixed-noise likelihood is itself a
fixed-noise likelihood. -/
theorem likPriorsMatch_fixedNoise (lik : Likelihood) (t0 : Tensor)
    (h : likPriorsMatch lik (Likelihood.fixedNoise t0) = true) :
    ∃ t, lik = Likelihood.fixedNoise t := by
  cases lik with
  | fixedNoise t => exact ⟨t, rfl⟩
  | gaussianDefault c r => exact absurd h (by simp [likPriorsMatch])
  | custom => exact absurd h (by simp [likPriorsMatch])

/-- A likelihood whose priors match a default Gaussian likelihood is that
very likelihood. -/
theorem likPriorsMatch_gaussian (lik : Likelihood) (c0 r0 : Int)
    (h : likPriorsMatch lik (Likelihood.gaussianDefault c0 r0) = true) :
    lik = Likelihood.gaussianDefault c0 r0 := by
  cases lik with
  | fixedNoise t => exact absurd h (by simp [likPriorsMatch])
  | gaussianDefault c r =>
    have : c = c0 ∧ r = r0 := by
      have h' := h
      rw [show likPriorsMatch (Likelihood.gaussianDefault c r)
          (Likelihood.gaussianDefault c0 r0)
          = (decide (c = c0) && decide (r = r0)) from rfl] at h'
      simpa using h'
    rw [this.1, this.2]
  | custom => exact absurd h (by simp [likPriorsMatch])

/-- Inversion of a successful `model_list_to_batched` call: every
validation step passed and the result is the constructed batched model. -/
theorem model_list_to_batched_ok_inv {m0 : GPModel} {rest : List GPModel}
    {b : GPModel} (h : model_list_to_batched ⟨m0 :: rest⟩ = .ok b) :
    (∀ m ∈ m0 :: rest, m.cls = m0.cls) ∧
    (∀ m ∈ m0 :: rest, m.has_batch_shape = true) ∧
    (∀ m ∈ m0 :: rest, m.train_X = m0.train_X) ∧
    (∀ m ∈ m0 :: rest, m.num_outputs = 1) ∧
    m0.cls ≠ GPClass.heteroskedasticSingleTaskGP ∧
    (∀ m ∈ m0 :: rest, m.likelihood.isCustom = false) ∧
    (∀ m ∈ m0 :: rest, likPriorsMatch m.likelihood m0.likelihood = true) ∧
    (∀ m ∈ m0 :: rest, m.train_Y.shape = m0.train_Y.shape ∧
       noiseShapesMatch m.likelihood m0.likelihood = true ∧
       paramShapesMatch m.params m0.params = true) ∧
    b = batchedOf m0 rest := by
  replace h : convertModels m0 rest = .ok b := h
  unfold convertModels at h
  split_ifs at h with h1 h2 h3 h4 h5 h6 h7 h8
  refine ⟨h1, h2, h3, h4, h5, h6, h7, h8, ?_⟩
  injection h with h
  exact h.symm

/-- The likelihood stored in the constructed batched model. -/
theorem batchedOf_likelihood (m0 : GPModel) (rest : List GPModel) :
    (batchedOf m0 rest).likelihood =
      match m0.likelihood with
      | Likelihood.fixedNoise _ =>
          Likelihood.fixedNoise
            (stackTensors ((m0 :: rest).map fun m => m.likelihood.noiseTensor))
      | lik => lik := rfl

/-- The parameter state stored in the constructed batched model. -/
theorem batchedOf_params (m0 : GPModel) (rest : List GPModel) :
    (batchedOf m0 rest).params = List.ofFn fun j : Fin m0.params.length =>
      ((m0.params.get j).1,
       stackTensors ((m0 :: rest).map fun m => paramTensorAt m.params j.val)) := rfl

/-- An entry of the parameter state of the constructed batched model. -/
theorem batchedOf_params_getElem (m0 : GPModel) (rest : List GPModel) (j : Nat)
    (hj : j < (batchedOf m0 rest).params.length) (hj0 : j < m0.params.length) :
    (batchedOf m0 rest).params[j]
      = ((m0.params.get ⟨j, hj0⟩).1,
         stackTensors ((m0 :: rest).map fun m => paramTensorAt m.params j)) := by
  rw [List.getElem_of_eq (batchedOf_params m0 rest) hj, List.getElem_ofFn]

/-- Slicing the stacked parameter state of the constructed batched model
at member index `i` recovers member `i`'s parameter state. -/
theorem sliced_params_eq (m0 : GPModel) (rest : List GPModel) (i : Nat)
    (hi : i < (m0 :: rest).length)
    (hwf : ∀ m ∈ m0 :: rest, ∀ kt ∈ m.params, (Prod.snd kt).wf)
    (hps : ∀ m ∈ m0 :: rest, paramShapesMatch m.params m0.params = true) :
    ((batchedOf m0 rest).params.map fun kt => (kt.1, sliceTensor kt.2 i))
      = ((m0 :: rest)[i]).params := by
  have hmem : (m0 :: rest)[i] ∈ m0 :: rest := List.getElem_mem hi
  obtain ⟨hleni, hpti⟩ := paramShapesMatch_spec _ _ (hps _ hmem)
  show (List.ofFn fun j : Fin m0.params.length =>
      ((m0.params.get j).1,
       stackTensors ((m0 :: rest).map fun m => paramTensorAt m.params j.val))).map
      (fun kt => (kt.1, sliceTensor kt.2 i)) = ((m0 :: rest)[i]).params
  rw [List.map_ofFn]
  apply List.ext_getElem
  · rw [List.length_ofFn]
    exact hleni.symm
  · intro j hj1 hj2
    rw [List.getElem_ofFn]
    have hj0 : j < m0.params.length := by simpa using hj1
    have hji : j < ((m0 :: rest)[i]).params.length := hj2
    show ((m0.params.get ⟨j, hj0⟩).1,
        sliceTensor
          (stackTensors ((m0 :: rest).map fun m => paramTensorAt m.params j)) i)
      = ((m0 :: rest)[i]).params[j]
    have hslice : sliceTensor
        (stackTensors ((m0 :: rest).map fun m => paramTensorAt m.params j)) i
        = (((m0 :: rest)[i]).params[j]).2 := by
      have hsh : ∀ t ∈ (m0 :: rest).map fun m => paramTensorAt m.params j,
          t.shape = ((m0.params[j]).2).shape := by
        intro t ht
        obtain ⟨m, hm, rfl⟩ := List.mem_map.mp ht
        obtain ⟨hlen, hpt⟩ := paramShapesMatch_spec _ _ (hps _ hm)
        have hjm : j < m.params.length := by omega
        rw [paramTensorAt_lt _ _ hjm]
        exact (hpt j hjm hj0).2
      have hwf' : ∀ t ∈ (m0 :: rest).map fun m => paramTensorAt m.params j,
          t.data.length = ((m0.params[j]).2).shape.prod := by
        intro t ht
        obtain ⟨m, hm, rfl⟩ := List.mem_map.mp ht
        obtain ⟨hlen, hpt⟩ := paramShapesMatch_spec _ _ (hps _ hm)
        have hjm : j < m.params.length := by omega
        rw [paramTensorAt_lt _ _ hjm, ← (hpt j hjm hj0).2]
        exact hwf _ hm _ (List.getElem_mem hjm)
      have hi' : i < ((m0 :: rest).map fun m => paramTensorAt m.params j).length := by
        simpa using hi
      rw [slice_stackTensors _ _ hsh hwf' i hi', List.getElem_map,
        paramTensorAt_lt _ _ (by omega : j < ((m0 :: rest)[i]).params.length)]
    rw [hslice]
    have hkey : (m0.params.get ⟨j, hj0⟩).1 = (((m0 :: rest)[i]).params[j]).1 := by
      rw [List.get_eq_getElem]
      exact ((hpti j hji hj0).1).symm
    rw [hkey]

/-- Exploding the batched model built from a convertible member list
recovers the very same member list. -/
theorem roundtrip_forward_aux (m0 : GPModel) (rest : List GPModel) (b : GPModel)
    (hwf : ∀ m ∈ m0 :: rest, m.wfTensors)
    (hok : model_list_to_batched ⟨m0 :: rest⟩ = .ok b) :
    batched_to_model_list b = .ok ⟨m0 :: rest⟩ := by
  obtain ⟨h1, h2, h3, h4, h5, h6, h7, h8, hb⟩ := model_list_to_batched_ok_inv hok
  subst hb
  unfold batched_to_model_list
  rw [if_neg (show ¬ (batchedOf m0 rest).cls = GPClass.heteroskedasticSingleTaskGP
    from h5)]
  refine congrArg (fun l => Except.ok (ModelListGP.mk l)) ?_
  apply List.ext_getElem
  · simp [batchedOf]
  · intro i hi1 hi2
    rw [List.getElem_ofFn]
    have hmem : (m0 :: rest)[i] ∈ m0 :: rest := List.getElem_mem hi2
    apply GPModel.ext
    · exact (h1 _ hmem).symm
    · exact (h2 _ hmem).symm
    · exact (h4 _ hmem).symm
    · show sliceTensor (stackTensors ((m0 :: rest).map fun _ => m0.train_X)) i
        = ((m0 :: rest)[i]).train_X
      have hsh : ∀ t ∈ (m0 :: rest).map fun _ => m0.train_X,
          t.shape = m0.train_X.shape := by
        intro t ht
        obtain ⟨m, hm, rfl⟩ := List.mem_map.mp ht
        rfl
      have hwf' : ∀ t ∈ (m0 :: rest).map fun _ => m0.train_X,
          t.data.length = m0.train_X.shape.prod := by
        intro t ht
        obtain ⟨m, hm, rfl⟩ := List.mem_map.mp ht
        exact (hwf m0 (List.mem_cons_self m0 rest)).1
      rw [slice_stackTensors _ _ hsh hwf' i (by simpa using hi2),
        List.getElem_map]
      exact (h3 _ hmem).symm
    · show sliceTensor (stackTensors ((m0 :: rest).map GPModel.train_Y)) i
        = ((m0 :: rest)[i]).train_Y
      have hsh : ∀ t ∈ (m0 :: rest).map GPModel.train_Y,
          t.shape = m0.train_Y.shape := by
        intro t ht
        obtain ⟨m, hm, rfl⟩ := List.mem_map.mp ht
        exact (h8 m hm).1
      have hwf' : ∀ t ∈ (m0 :: rest).map GPModel.train_Y,
          t.data.length = m0.train_Y.shape.prod := by
        intro t ht
        obtain ⟨m, hm, rfl⟩ := List.mem_map.mp ht
        rw [← (h8 m hm).1]
        exact (hwf m hm).2.1
      rw [slice_stackTensors _ _ hsh hwf' i (by simpa using hi2),
        List.getElem_map]
    · show ((batchedOf m0 rest).likelihood).sliceOutput i
        = ((m0 :: rest)[i]).likelihood
      cases hl0 : m0.likelihood with
      | custom =>
        exact absurd (h6 m0 (List.mem_cons_self m0 rest))
          (by rw [hl0]; simp [Likelihood.isCustom])
      | gaussianDefault c r =>
        rw [batchedOf_likelihood, hl0]
        show Likelihood.gaussianDefault c r = _
        exact (likPriorsMatch_gaussian _ c r (by rw [← hl0]; exact h7 _ hmem)).symm
      | fixedNoise t0 =>
        rw [batchedOf_likelihood, hl0]
        show Likelihood.fixedNoise
            (sliceTensor
              (stackTensors ((m0 :: rest).map fun m => m.likelihood.noiseTensor)) i)
          = ((m0 :: rest)[i]).likelihood
        obtain ⟨ti, hti⟩ := likPriorsMatch_fixedNoise _ t0
          (by rw [← hl0]; exact h7 _ hmem)
        have hsh : ∀ t ∈ (m0 :: rest).map fun m => m.likelihood.noiseTensor,
            t.shape = t0.shape := by
          intro t ht
          obtain ⟨m, hm, rfl⟩ := List.mem_map.mp ht
          obtain ⟨tm, htm⟩ := likPriorsMatch_fixedNoise _ t0
            (by rw [← hl0]; exact h7 _ hm)
          have hns := (h8 m hm).2.1
          rw [htm, hl0] at hns
          rw [htm]
          show tm.shape = t0.shape
          simpa [noiseShapesMatch] using hns
        have hwf' : ∀ t ∈ (m0 :: rest).map fun m => m.likelihood.noiseTensor,
            t.data.length = t0.shape.prod := by
          intro t ht
          obtain ⟨m, hm, rfl⟩ := List.mem_map.mp ht
          obtain ⟨tm, htm⟩ := likPriorsMatch_fixedNoise _ t0
            (by rw [← hl0]; exact h7 _ hm)
          have hwn := (hwf m hm).2.2.1
          rw [htm] at hwn
          rw [← hsh _ (List.mem_map.mpr ⟨m, hm, rfl⟩), htm]
          exact hwn
        rw [slice_stackTensors _ _ hsh hwf' i (by simpa using hi2),
          List.getElem_map, hti]
        rfl
    · exact sliced_params_eq m0 rest i hi2 (fun m hm => (hwf m hm).2.2.2)
        (fun m hm => (h8 m hm).2.2)

/-- Re-batching the member list exploded from a well-formed batched model
recovers the batched model's parameter state exactly. -/
theorem roundtrip_reverse_aux (B : GPModel) (L : ModelListGP) (Bb : GPModel)
    (hwf : ∀ kt ∈ B.params, (Prod.snd kt).wfBatch B.num_outputs)
    (hBL : batched_to_model_list B = .ok L)
    (hLB : model_list_to_batched L = .ok Bb) :
    Bb.params = B.params := by
  unfold batched_to_model_list at hBL
  split_ifs at hBL with hcls
  injection hBL with hBL
  subst hBL
  rcases hno : B.num_outputs with _ | o'
  · rw [hno] at hLB
    rw [show (List.ofFn fun i : Fin 0 => sliceModel B i.val) = [] from
      List.ofFn_zero _] at hLB
    have hempty : model_list_to_batched ⟨[]⟩
        = .error (.unsupported "Cannot convert an empty model list") := rfl
    rw [hempty] at hLB
    exact Except.noConfusion hLB
  · rw [hno] at hLB
    rw [List.ofFn_succ] at hLB
    obtain ⟨_, _, _, _, _, _, _, _, hb⟩ := model_list_to_batched_ok_inv hLB
    subst hb
    show (batchedOf (sliceModel B (0 : Fin (o' + 1)).val)
      (List.ofFn fun i : Fin o' => sliceModel B i.succ.val)).params = B.params
    apply List.ext_getElem
    · rw [batchedOf_params, List.length_ofFn]
      show (B.params.map fun kt =>
        (kt.1, sliceTensor kt.2 (0 : Fin (o' + 1)).val)).length = B.params.length
      exact List.length_map _ _
    · intro j hj1 hj2
      have hj0 : j < (sliceModel B (0 : Fin (o' + 1)).val).params.length := by
        show j < (B.params.map fun kt =>
          (kt.1, sliceTensor kt.2 (0 : Fin (o' + 1)).val)).length
        rw [List.length_map]
        exact hj2
      rw [batchedOf_params_getElem _ _ j hj1 hj0]
      have hcol : ((sliceModel B (0 : Fin (o' + 1)).val
            :: List.ofFn fun i : Fin o' => sliceModel B i.succ.val).map
            fun m => paramTensorAt m.params j)
          = List.ofFn fun i : Fin (o' + 1) =>
              sliceTensor ((B.params[j]).2) i.val := by
        rw [show (sliceModel B (0 : Fin (o' + 1)).val
            :: List.ofFn fun i : Fin o' => sliceModel B i.succ.val)
            = List.ofFn fun i : Fin (o' + 1) => sliceModel B i.val from
          (List.ofFn_succ (fun i : Fin (o' + 1) => sliceModel B i.val)).symm,
          List.map_ofFn]
        refine congrArg List.ofFn (funext fun i => ?_)
        show paramTensorAt (B.params.map fun kt =>
          (kt.1, sliceTensor kt.2 i.val)) j = sliceTensor ((B.params[j]).2) i.val
        exact paramTensorAt_map B.params (fun t => sliceTensor t i.val) j hj2
      rw [hcol]
      obtain ⟨hhead, hwfj⟩ := hwf _ (List.getElem_mem hj2)
      rw [hno] at hhead
      rw [stackTensors_slices _ (o' + 1) (Nat.succ_pos o') hhead hwfj]
      have hkey : ((sliceModel B (0 : Fin (o' + 1)).val).params.get ⟨j, hj0⟩).1
          = (B.params[j]).1 := by
        rw [List.get_eq_getElem,
          List.getElem_of_eq (show (sliceModel B (0 : Fin (o' + 1)).val).params
            = B.params.map fun kt =>
              (kt.1, sliceTensor kt.2 (0 : Fin (o' + 1)).val) from rfl) _,
          List.getElem_map]
      rw [hkey]

end BoTorch
namespace BoTorch

/-- C2: `Model.fantasize` is exactly the three-step composition of
`posterior`, the sampler, and `condition_on_observations`, and a failure
of any step is the failure of `fantasize`. -/
theorem fantasize_is_three_step_composition {X Y P M : Type}
    (m : Model X Y P M) (x : X) (sampler : P → Except PyErr Y)
    (observation_noise : Bool) :
    (∀ e, m.posterior x observation_noise = .error e →
      m.fantasize x sampler observation_noise = .error e) ∧
    (∀ p e, m.posterior x observation_noise = .ok p → sampler p = .error e →
      m.fantasize x sampler observation_noise = .error e) ∧
    (∀ p y, m.posterior x observation_noise = .ok p → sampler p = .ok y →
      m.fantasize x sampler observation_noise =
        m.condition_on_observations x y) := by
  refine ⟨fun e he => ?_, fun p e hp hs => ?_, fun p y hp hs => ?_⟩
  · simp [Model.fantasize, he]
  · simp [Model.fantasize, hp, hs]
  · simp [Model.fantasize, hp, hs]

/-- Witness for C2 at a concrete model: the posterior succeeds, the sampler
succeeds, and `fantasize` returns the conditioning result. -/
theorem fantasize_is_three_step_composition_witness :
    (let m : Model Int Int Int Int :=
      { posterior := fun x _ => .ok (x + 1),
        conditionImpl := some (fun x y => .ok (x * y)) };
     m.posterior 2 true = .ok 3 ∧
     (fun p : Int => (Except.ok (p + 10) : Except PyErr Int)) 3 = .ok 13 ∧
     m.fantasize 2 (fun p => .ok (p + 10)) true =
       m.condition_on_observations 2 13) := by
  refine ⟨rfl, rfl, ?_⟩
  exact (fantasize_is_three_step_composition _ 2 _ true).2.2 3 13 rfl rfl

/-- C3: the default (unoverridden) `condition_on_observations` raises
`NotImplementedError` on every input; it never returns a model. -/
theorem condition_on_observations_default_raises {X Y P M : Type}
    (m : Model X Y P M) (h : m.conditionImpl = none) (x : X) (y : Y) :
    m.condition_on_observations x y = .error .notImplemented := by
  simp [Model.condition_on_observations, h]

/-- Witness for C3 at a concrete model and input. -/
theorem condition_on_observations_default_raises_witness :
    (let m : Model Int Int Int Int :=
      { posterior := fun x _ => .ok x, conditionImpl := none };
     m.conditionImpl = none ∧
     m.condition_on_observations 0 7 = .error .notImplemented) :=
  ⟨rfl, condition_on_observations_default_raises _ rfl 0 7⟩

/-- C10: on a model that implements `posterior` but does not override
`condition_on_observations`, `fantasize` raises `NotImplementedError`
whenever the posterior and the sampler both succeed; when an earlier step
raises, that earlier failure propagates instead, so the call only reaches
the conditioning failure after posterior and sampler have run. The
embedding is pure, so the model value itself is never mutated. -/
theorem fantasize_unoverridden_condition_raises {X Y P M : Type}
    (m : Model X Y P M) (h : m.conditionImpl = none)
    (x : X) (sampler : P → Except PyErr Y) (observation_noise : Bool) :
    (∀ p y, m.posterior x observation_noise = .ok p → sampler p = .ok y →
      m.fantasize x sampler observation_noise = .error .notImplemented) ∧
    (∀ e, m.posterior x observation_noise = .error e →
      m.fantasize x sampler observation_noise = .error e) ∧
    (∀ p e, m.posterior x observation_noise = .ok p → sampler p = .error e →
      m.fantasize x sampler observation_noise = .error e) := by
  refine ⟨fun p y hp hs => ?_, fun e he => ?_, fun p e hp hs => ?_⟩
  · simp [Model.fantasize, Model.condition_on_observations, h, hp, hs]
  · simp [Model.fantasize, he]
  · simp [Model.fantasize, hp, hs]

/-- Witness for C10 at a concrete model whose posterior and sampler
succeed: `fantasize` fails with `NotImplementedError`. -/
theorem fantasize_unoverridden_condition_raises_witness :
    (let m : Model Int Int Int Int :=
      { posterior := fun x _ => .ok (x - 1), conditionImpl := none };
     m.conditionImpl = none ∧ m.posterior 5 true = .ok 4 ∧
     (fun p : Int => (Except.ok (p * 2) : Except PyErr Int)) 4 = .ok 8 ∧
     m.fantasize 5 (fun p => .ok (p * 2)) true = .error .notImplemented) :=
  ⟨rfl, rfl, rfl,
    (fantasize_unoverridden_condition_raises _ rfl 5 _ true).1 4 8 rfl rfl⟩

end BoTorch

namespace BoTorch

/-- C1: for every well-formed ModelList convertible to batched form, the
composition of `model_list_to_batched` and `batched_to_model_list` is a
value-preserving round trip: forward it returns the very same member list
(hence equal parameter state for every member and key), and backward a
convertible batched model's parameter state is restored exactly. -/
theorem converter_roundtrip_parameter_state :
    (∀ (L : ModelListGP) (b : GPModel),
      (∀ m ∈ L.models, m.wfTensors) →
      model_list_to_batched L = .ok b →
      batched_to_model_list b = .ok L) ∧
    (∀ (B : GPModel) (L : ModelListGP) (Bb : GPModel),
      (∀ kt ∈ B.params, (Prod.snd kt).wfBatch B.num_outputs) →
      batched_to_model_list B = .ok L →
      model_list_to_batched L = .ok Bb →
      Bb.params = B.params) := by
  constructor
  · intro L b hwf hok
    cases L with
    | mk models =>
      cases models with
      | nil =>
        rw [show model_list_to_batched ⟨[]⟩ = .error
          (.unsupported "Cannot convert an empty model list") from rfl] at hok
        exact Except.noConfusion hok
      | cons m0 rest => exact roundtrip_forward_aux m0 rest b hwf hok
  · exact roundtrip_reverse_aux

/-- Witness for C1 on a concrete two-member list and its batched form. -/
theorem converter_roundtrip_parameter_state_witness :
    ((∀ m ∈ (ModelListGP.mk [exA, exB]).models, m.wfTensors) ∧
     model_list_to_batched ⟨[exA, exB]⟩ = .ok (batchedOf exA [exB]) ∧
     batched_to_model_list (batchedOf exA [exB]) = .ok ⟨[exA, exB]⟩) ∧
    ((∀ kt ∈ (batchedOf exA [exB]).params,
        (Prod.snd kt).wfBatch (batchedOf exA [exB]).num_outputs) ∧
     (batchedOf exA [exB]).params = (batchedOf exA [exB]).params) :=
  ⟨⟨by decide, by decide,
    converter_roundtrip_parameter_state.1 ⟨[exA, exB]⟩ (batchedOf exA [exB])
      (by decide) (by decide)⟩,
   ⟨by decide,
    converter_roundtrip_parameter_state.2 (batchedOf exA [exB]) ⟨[exA, exB]⟩
      (batchedOf exA [exB]) (by decide) (by decide) (by decide)⟩⟩

/-- C4: a list whose members are not all of the exact same concrete class
fails with the class-mismatch `UnsupportedError`; because the class check
is the first validation, that exact error is returned no matter what else
holds of the list. -/
theorem model_list_to_batched_class_mismatch (L : ModelListGP)
    (m0 : GPModel) (rest : List GPModel) (hL : L.models = m0 :: rest)
    (h : ∃ m ∈ L.models, ∃ mm ∈ L.models, m.cls ≠ mm.cls) :
    model_list_to_batched L
      = .error (.unsupported "All models must be of the same type") := by
  cases L with
  | mk models =>
    replace hL : models = m0 :: rest := hL
    subst hL
    obtain ⟨m, hm, mm, hmm, hne⟩ := h
    have hcond : ¬ (∀ m ∈ m0 :: rest, m.cls = m0.cls) := by
      intro hall
      exact hne ((hall m hm).trans (hall mm hmm).symm)
    show convertModels m0 rest = _
    unfold convertModels
    rw [if_pos hcond]

/-- Witness for C4: a plain GP and a fixed-noise GP in one list. -/
theorem model_list_to_batched_class_mismatch_witness :
    (ModelListGP.mk [exA, exC]).models = exA :: [exC] ∧
    (∃ m ∈ (ModelListGP.mk [exA, exC]).models,
      ∃ mm ∈ (ModelListGP.mk [exA, exC]).models, m.cls ≠ mm.cls) ∧
    model_list_to_batched ⟨[exA, exC]⟩
      = .error (.unsupported "All models must be of the same type") :=
  ⟨rfl, by decide,
   model_list_to_batched_class_mismatch ⟨[exA, exC]⟩ exA [exC] rfl (by decide)⟩

/-- C5: a list holding two members whose training-input tensors are not
elementwise identical fails with an `UnsupportedError`. -/
theorem model_list_to_batched_trainX_mismatch (L : ModelListGP)
    (m0 : GPModel) (rest : List GPModel) (hL : L.models = m0 :: rest)
    (h : ∃ m ∈ L.models, ∃ mm ∈ L.models, m.train_X ≠ mm.train_X) :
    ∃ msg, model_list_to_batched L = .error (.unsupported msg) := by
  cases L with
  | mk models =>
    replace hL : models = m0 :: rest := hL
    subst hL
    obtain ⟨m, hm, mm, hmm, hne⟩ := h
    have hX : ¬ (∀ m ∈ m0 :: rest, m.train_X = m0.train_X) := by
      intro hall
      exact hne ((hall m hm).trans (hall mm hmm).symm)
    show ∃ msg, convertModels m0 rest = _
    unfold convertModels
    by_cases h1 : ∀ m ∈ m0 :: rest, m.cls = m0.cls
    · rw [if_neg (not_not.mpr h1)]
      by_cases h2 : ∀ m ∈ m0 :: rest, m.has_batch_shape = true
      · rw [if_neg (not_not.mpr h2), if_pos hX]
        exact ⟨_, rfl⟩
      · rw [if_pos h2]
        exact ⟨_, rfl⟩
    · rw [if_pos h1]
      exact ⟨_, rfl⟩

/-- Witness for C5: two plain GPs with different training inputs of the
same shape. -/
theorem model_list_to_batched_trainX_mismatch_witness :
    (ModelListGP.mk [exA, exD]).models = exA :: [exD] ∧
    (∃ m ∈ (ModelListGP.mk [exA, exD]).models,
      ∃ mm ∈ (ModelListGP.mk [exA, exD]).models, m.train_X ≠ mm.train_X) ∧
    ∃ msg, model_list_to_batched ⟨[exA, exD]⟩ = .error (.unsupported msg) :=
  ⟨rfl, by decide,
   model_list_to_batched_trainX_mismatch ⟨[exA, exD]⟩ exA [exD] rfl (by decide)⟩

end BoTorch

namespace BoTorch

/-- C6: on a list of learned-noise models passing the earlier structural
checks, a mismatch of the default-prior rate hyperparameters fails with
the training-priors `UnsupportedError`, and (with matching priors) a shape
mismatch between tensor-valued hyperparameters fails with the
tensor-shapes `UnsupportedError`. -/
theorem model_list_to_batched_prior_and_shape_mismatch :
    (∀ (L : ModelListGP) (m0 : GPModel) (rest : List GPModel),
      L.models = m0 :: rest →
      (∀ m ∈ L.models, m.cls = m0.cls) →
      (∀ m ∈ L.models, m.has_batch_shape = true) →
      (∀ m ∈ L.models, m.train_X = m0.train_X) →
      (∀ m ∈ L.models, m.num_outputs = 1) →
      m0.cls ≠ GPClass.heteroskedasticSingleTaskGP →
      (∀ m ∈ L.models, ∃ c r, m.likelihood = Likelihood.gaussianDefault c r) →
      ∀ mi ∈ L.models, ∀ (c r c0 r0 : Int),
        mi.likelihood = Likelihood.gaussianDefault c r →
        m0.likelihood = Likelihood.gaussianDefault c0 r0 →
        r ≠ r0 →
        model_list_to_batched L
          = .error (.unsupported "All models must have the same training priors")) ∧
    (∀ (L : ModelListGP) (m0 : GPModel) (rest : List GPModel),
      L.models = m0 :: rest →
      (∀ m ∈ L.models, m.cls = m0.cls) →
      (∀ m ∈ L.models, m.has_batch_shape = true) →
      (∀ m ∈ L.models, m.train_X = m0.train_X) →
      (∀ m ∈ L.models, m.num_outputs = 1) →
      m0.cls ≠ GPClass.heteroskedasticSingleTaskGP →
      (∀ m ∈ L.models, ∃ c r, m.likelihood = Likelihood.gaussianDefault c r) →
      (∀ m ∈ L.models, likPriorsMatch m.likelihood m0.likelihood = true) →
      ∀ mi ∈ L.models,
        ∀ (j : Nat) (hj : j < mi.params.length) (hj0 : j < m0.params.length),
        (mi.params.get ⟨j, hj⟩).2.shape ≠ (m0.params.get ⟨j, hj0⟩).2.shape →
        model_list_to_batched L
          = .error (.unsupported
              "All models must have tensors of equal shape to be stacked")) := by
  constructor
  · intro L m0 rest hL h1 h2 h3 h4 h5 hGauss mi hmi c r c0 r0 hlik hlik0 hr
    cases L with
    | mk models =>
      replace hL : models = m0 :: rest := hL
      subst hL
      have hNoCustom : ∀ m ∈ m0 :: rest, m.likelihood.isCustom = false := by
        intro m hm
        obtain ⟨c1, r1, hcr⟩ := hGauss m hm
        rw [hcr]
        rfl
      have hPrior : ¬ (∀ m ∈ m0 :: rest,
          likPriorsMatch m.likelihood m0.likelihood = true) := by
        intro hall
        have hmm := hall mi hmi
        rw [hlik, hlik0] at hmm
        have : c = c0 ∧ r = r0 := by
          rw [show likPriorsMatch (Likelihood.gaussianDefault c r)
              (Likelihood.gaussianDefault c0 r0)
              = (decide (c = c0) && decide (r = r0)) from rfl] at hmm
          simpa using hmm
        exact hr this.2
      show convertModels m0 rest = _
      unfold convertModels
      rw [if_neg (not_not.mpr h1), if_neg (not_not.mpr h2),
        if_neg (not_not.mpr h3), if_neg (not_not.mpr h4), if_neg h5,
        if_neg (not_not.mpr hNoCustom), if_pos hPrior]
  · intro L m0 rest hL h1 h2 h3 h4 h5 hGauss hPriors mi hmi j hj hj0 hsne
    cases L with
    | mk models =>
      replace hL : models = m0 :: rest := hL
      subst hL
      have hNoCustom : ∀ m ∈ m0 :: rest, m.likelihood.isCustom = false := by
        intro m hm
        obtain ⟨c1, r1, hcr⟩ := hGauss m hm
        rw [hcr]
        rfl
      have hShapes : ¬ (∀ m ∈ m0 :: rest,
          m.train_Y.shape = m0.train_Y.shape ∧
          noiseShapesMatch m.likelihood m0.likelihood = true ∧
          paramShapesMatch m.params m0.params = true) := by
        intro hall
        obtain ⟨hlen, hpt⟩ := paramShapesMatch_spec _ _ (hall mi hmi).2.2
        apply hsne
        rw [List.get_eq_getElem, List.get_eq_getElem]
        exact (hpt j hj hj0).2
      show convertModels m0 rest = _
      unfold convertModels
      rw [if_neg (not_not.mpr h1), if_neg (not_not.mpr h2),
        if_neg (not_not.mpr h3), if_neg (not_not.mpr h4), if_neg h5,
        if_neg (not_not.mpr hNoCustom), if_neg (not_not.mpr hPriors),
        if_pos hShapes]

/-- Witness for C6: a rate mismatch and an output-scale shape mismatch on
concrete two-member lists. -/
theorem model_list_to_batched_prior_and_shape_mismatch_witness :
    (model_list_to_batched ⟨[exA, exE]⟩
      = .error (.unsupported "All models must have the same training priors")) ∧
    (model_list_to_batched ⟨[exA, exF]⟩
      = .error (.unsupported
          "All models must have tensors of equal shape to be stacked")) :=
  ⟨model_list_to_batched_prior_and_shape_mismatch.1 ⟨[exA, exE]⟩ exA [exE] rfl
      (by decide) (by decide) (by decide) (by decide) (by decide)
      (by
        intro m hm
        cases hm with
        | head => exact ⟨2, 3, rfl⟩
        | tail _ hm =>
          cases hm with
          | head => exact ⟨2, 4, rfl⟩
          | tail _ hm => cases hm)
      exE (by decide) 2 4 2 3 rfl rfl (by decide),
   model_list_to_batched_prior_and_shape_mismatch.2 ⟨[exA, exF]⟩ exA [exF] rfl
      (by decide) (by decide) (by decide) (by decide) (by decide)
      (by
        intro m hm
        cases hm with
        | head => exact ⟨2, 3, rfl⟩
        | tail _ hm =>
          cases hm with
          | head => exact ⟨2, 3, rfl⟩
          | tail _ hm => cases hm)
      (by decide) exF (by decide) 0 (by decide) (by decide) (by decide)⟩

/-- C7: a list holding a member constructed with a custom (non-default)
likelihood fails with `NotImplementedError`, also on a single-member
list. -/
theorem model_list_to_batched_custom_likelihood (L : ModelListGP)
    (m0 : GPModel) (rest : List GPModel) (hL : L.models = m0 :: rest)
    (h1 : ∀ m ∈ L.models, m.cls = m0.cls)
    (h2 : ∀ m ∈ L.models, m.has_batch_shape = true)
    (h3 : ∀ m ∈ L.models, m.train_X = m0.train_X)
    (h4 : ∀ m ∈ L.models, m.num_outputs = 1)
    (h5 : m0.cls ≠ GPClass.heteroskedasticSingleTaskGP)
    (h : ∃ m ∈ L.models, m.likelihood = Likelihood.custom) :
    model_list_to_batched L
      = .error (.notImplemented
          "Conversion of models with custom likelihoods is not implemented") := by
  cases L with
  | mk models =>
    replace hL : models = m0 :: rest := hL
    subst hL
    obtain ⟨m, hm, hcust⟩ := h
    have hCustom : ¬ (∀ m ∈ m0 :: rest, m.likelihood.isCustom = false) := by
      intro hall
      have := hall m hm
      rw [hcust] at this
      exact Bool.noConfusion this
    show convertModels m0 rest = _
    unfold convertModels
    rw [if_neg (not_not.mpr h1), if_neg (not_not.mpr h2),
      if_neg (not_not.mpr h3), if_neg (not_not.mpr h4), if_neg h5,
      if_pos hCustom]

/-- Witness for C7: a single-member list with a custom likelihood. -/
theorem model_list_to_batched_custom_likelihood_witness :
    (ModelListGP.mk [exG]).models = exG :: [] ∧
    (∃ m ∈ (ModelListGP.mk [exG]).models, m.likelihood = Likelihood.custom) ∧
    model_list_to_batched ⟨[exG]⟩
      = .error (.notImplemented
          "Conversion of models with custom likelihoods is not implemented") :=
  ⟨rfl, by decide,
   model_list_to_batched_custom_likelihood ⟨[exG]⟩ exG [] rfl (by decide)
     (by decide) (by decide) (by decide) (by decide) (by decide)⟩

/-- C8: heteroskedastic models are rejected with `NotImplementedError` in
both conversion directions. -/
theorem heteroskedastic_not_implemented_both_directions :
    (∀ B : GPModel, B.cls = GPClass.heteroskedasticSingleTaskGP →
      batched_to_model_list B
        = .error (.notImplemented
            "Conversion of HeteroskedasticSingleTaskGP is not implemented")) ∧
    (∀ (L : ModelListGP) (m0 : GPModel) (rest : List GPModel),
      L.models = m0 :: rest →
      (∀ m ∈ L.models, m.cls = m0.cls) →
      (∀ m ∈ L.models, m.has_batch_shape = true) →
      (∀ m ∈ L.models, m.train_X = m0.train_X) →
      (∀ m ∈ L.models, m.num_outputs = 1) →
      m0.cls = GPClass.heteroskedasticSingleTaskGP →
      model_list_to_batched L
        = .error (.notImplemented
            "Conversion of HeteroskedasticSingleTaskGP is not implemented")) := by
  constructor
  · intro B hB
    unfold batched_to_model_list
    rw [if_pos hB]
  · intro L m0 rest hL h1 h2 h3 h4 h5
    cases L with
    | mk models =>
      replace hL : models = m0 :: rest := hL
      subst hL
      show convertModels m0 rest = _
      unfold convertModels
      rw [if_neg (not_not.mpr h1), if_neg (not_not.mpr h2),
        if_neg (not_not.mpr h3), if_neg (not_not.mpr h4), if_pos h5]

/-- Witness for C8: a concrete heteroskedastic model, batched and as a
single-member list. -/
theorem heteroskedastic_not_implemented_both_directions_witness :
    (exH.cls = GPClass.heteroskedasticSingleTaskGP ∧
     batched_to_model_list exH
       = .error (.notImplemented
           "Conversion of HeteroskedasticSingleTaskGP is not implemented")) ∧
    model_list_to_batched ⟨[exH]⟩
      = .error (.notImplemented
          "Conversion of HeteroskedasticSingleTaskGP is not implemented") :=
  ⟨⟨rfl, heteroskedastic_not_implemented_both_directions.1 exH rfl⟩,
   heteroskedastic_not_implemented_both_directions.2 ⟨[exH]⟩ exH [] rfl
     (by decide) (by decide) (by decide) (by decide) rfl⟩

/-- C9: a successful conversion of a single-member list yields a batched
model whose number of outputs is exactly 1. -/
theorem model_list_to_batched_single_member_num_outputs (m b : GPModel)
    (h : model_list_to_batched ⟨[m]⟩ = .ok b) : b.num_outputs = 1 := by
  obtain ⟨_, _, _, _, _, _, _, _, hb⟩ := model_list_to_batched_ok_inv h
  subst hb
  rfl

/-- Witness for C9: converting the single-member list of `exA`. -/
theorem model_list_to_batched_single_member_num_outputs_witness :
    model_list_to_batched ⟨[exA]⟩ = .ok (batchedOf exA []) ∧
    (batchedOf exA []).num_outputs = 1 :=
  ⟨by decide,
   model_list_to_batched_single_member_num_outputs exA (batchedOf exA [])
     (by decide)⟩

end BoTorch
